import Mathlib

/-!
Verification of the telegram-raycast extension core against its
natural-language specification.

JavaScript strings are modelled as lists of UTF-16 code units
(`JsStr := List Nat`), so that unpaired surrogates — which Lean's `Char`
cannot represent — are expressible.  Each definition below is a shallow
embedding of a function of the repository; the doc comment names its
source location.
-/

set_option maxRecDepth 100000

/-- A JavaScript string: its sequence of UTF-16 code units. -/
abbrev JsStr : Type := List Nat

/-- Code units of an ASCII Lean string literal, used to transcribe the
string literals appearing in the source. -/
def jstr (s : String) : JsStr := s.data.map Char.toNat

/-- One decimal digit as a code unit, as produced by JavaScript
`Number.prototype.toString`. -/
def digitUnit (n : Nat) : Nat := 48 + n % 10

/-- Fuel-indexed accumulator loop producing the decimal digits of `n`
(most significant first), mirroring `toString()` on a non-negative id. -/
def natReprAux : Nat → Nat → List Nat → List Nat
  | 0, _, acc => acc
  | fuel + 1, n, acc =>
    let acc' := digitUnit n :: acc
    if n < 10 then acc' else natReprAux fuel (n / 10) acc'

/-- Decimal representation of a natural number as UTF-16 code units,
modelling JavaScript `entity.id.toString()`. -/
def natRepr (n : Nat) : JsStr := natReprAux (n + 1) n []

lemma natReprAux_mem_ge {fuel : Nat} : ∀ {n : Nat} {acc : List Nat},
    (∀ x ∈ acc, 48 ≤ x) → ∀ x ∈ natReprAux fuel n acc, 48 ≤ x := by
  induction fuel with
  | zero => intro n acc hacc x hx; exact hacc x hx
  | succ fuel ih =>
    intro n acc hacc x hx
    have hd : ∀ y ∈ digitUnit n :: acc, 48 ≤ y := by
      intro y hy
      rcases List.mem_cons.mp hy with h | h
      · subst h; exact Nat.le_add_right 48 (n % 10)
      · exact hacc y h
    by_cases hn : n < 10
    · simp only [natReprAux, hn, if_true] at hx
      exact hd x hx
    · simp only [natReprAux, hn, if_false] at hx
      exact ih hd x hx

/-- Every code unit of a decimal representation is a digit (`≥ '0'`). -/
lemma natRepr_mem_ge {n x : Nat} (hx : x ∈ natRepr n) : 48 ≤ x :=
  natReprAux_mem_ge (by intro y hy; cases hy) x hx

/-- `List.isPrefixOf` on code units succeeds on an appended extension. -/
lemma isPrefixOf_append_self (l t : List Nat) : l.isPrefixOf (l ++ t) = true := by
  induction l with
  | nil => simp [List.isPrefixOf]
  | cons a l ih => simp [List.isPrefixOf, ih]

/-- If a nonempty pattern is a prefix then its first unit occurs in the text. -/
lemma isPrefixOf_head_mem {a : Nat} {as l : List Nat}
    (h : (a :: as).isPrefixOf l = true) : a ∈ l := by
  cases l with
  | nil => simp [List.isPrefixOf] at h
  | cons b bs =>
    simp only [List.isPrefixOf, Bool.and_eq_true, beq_iff_eq] at h
    exact h.1 ▸ List.mem_cons_self a bs

/-- The three chat classifications of the extension (`ChatType` in
`src/types.ts`): `Private`, `Group`, `Channel`. -/
inductive ChatType where
  | priv
  | group
  | channel
deriving DecidableEq, Repr

/-- The peer-id derivation of `formatDialog`
(`src/utils/telegramUtils.ts` lines 49-58): a `"Channel"`-class entity is a
megagroup `Group` or a broadcast `Channel` and gets `"-100" + id`; a
`"Chat"`-class entity is a legacy `Group` and gets `"-" + id`; anything
else is `Private` with the bare decimal id. -/
def encodeChatId (id : Nat) (className : Option String) (megagroup : Bool) :
    ChatType × JsStr :=
  if className = some "Channel" then
    ((if megagroup then ChatType.group else ChatType.channel), jstr "-100" ++ natRepr id)
  else if className = some "Chat" then
    (ChatType.group, jstr "-" ++ natRepr id)
  else
    (ChatType.priv, natRepr id)

/-- The prefix classification of a numeric chat identifier in
`loadChatInfo` (`src/openchat.tsx` lines 148-182): a `"-100"`-prefixed id
is a megagroup `Group` or a `Channel`, a `"-"`-prefixed id is a legacy
`Group`, a bare id is `Private`. -/
def decodeKind (chatId : JsStr) (megagroup : Bool) : ChatType :=
  if (jstr "-100").isPrefixOf chatId then
    (if megagroup then ChatType.group else ChatType.channel)
  else if (jstr "-").isPrefixOf chatId then ChatType.group
  else ChatType.priv

lemma jstr_dash100 : jstr "-100" = [45, 49, 48, 48] := by decide

lemma jstr_dash : jstr "-" = [45] := by decide

lemma jstr_100 : jstr "100" = [49, 48, 48] := by decide

/-- Claim C1 (counterexample): the round-trip fails for a legacy basic
group whose decimal id begins with the digits `100`.  `formatDialog`
encodes the `"Chat"`-class entity with id `100` as `"-100"`, which the
prefix classifier of `loadChatInfo` decodes as `Channel`, not `Group`. -/
theorem peerIdCodec_roundTrip_counterexample :
    decodeKind (encodeChatId 100 (some "Chat") false).2 false ≠
      (encodeChatId 100 (some "Chat") false).1 := by decide

/-- Claim C1 (amended): for every valid entity (id, class, megagroup flag),
decoding the encoded chat id by prefix yields the class-derived type,
provided that a legacy `"Chat"`-class id's decimal form does not begin
with the digits `100` (otherwise its `"-" + id` encoding collides with the
`"-100"` channel prefix).  Channel-class entities (broadcast channels and
megagroups) map to `"-100" + id`, legacy basic groups to `"-" + id`, and
users to the bare id. -/
theorem peerIdCodec_roundTrip_amended (id : Nat) (className : Option String)
    (megagroup : Bool)
    (h : className = some "Chat" → (jstr "100").isPrefixOf (natRepr id) = false) :
    decodeKind (encodeChatId id className megagroup).2 megagroup =
      (encodeChatId id className megagroup).1 := by
  have hASCII : ∀ p : Nat, p ∈ natRepr id → 48 ≤ p := fun p hp => natRepr_mem_ge hp
  by_cases hch : className = some "Channel"
  · simp only [encodeChatId, hch, if_true, reduceIte]
    simp [decodeKind, isPrefixOf_append_self]
  · by_cases hct : className = some "Chat"
    · have h100 := h hct
      rw [jstr_100] at h100
      simp only [encodeChatId, hch, hct, if_false, if_true, reduceIte]
      rw [jstr_dash]
      simp [decodeKind, jstr_dash100, jstr_dash, List.isPrefixOf, h100]
    · simp only [encodeChatId, hch, hct, if_false, reduceIte]
      have h1 : (jstr "-100").isPrefixOf (natRepr id) = false := by
        rw [jstr_dash100]
        cases hc : ([45, 49, 48, 48] : List Nat).isPrefixOf (natRepr id) with
        | false => rfl
        | true =>
          have hm := isPrefixOf_head_mem hc
          have := hASCII 45 hm
          omega
      have h2 : (jstr "-").isPrefixOf (natRepr id) = false := by
        rw [jstr_dash]
        cases hc : ([45] : List Nat).isPrefixOf (natRepr id) with
        | false => rfl
        | true =>
          have hm := isPrefixOf_head_mem hc
          have := hASCII 45 hm
          omega
      simp [decodeKind, h1, h2]

/-- Claim C1 (witness): the amended round trip at the concrete legacy
group with id 5. -/
theorem peerIdCodec_roundTrip_amended_witness :
    decodeKind (encodeChatId 5 (some "Chat") false).2 false =
      (encodeChatId 5 (some "Chat") false).1 :=
  peerIdCodec_roundTrip_amended 5 (some "Chat") false (fun _ => by decide)

/-- A C0/C1 control code unit, the class `[\u0000-\u001F\u007F-\u009F]`
removed by the first `replace` of `sanitizeText`
(`src/utils/telegramUtils.ts` line 13). -/
def isControlB (u : Nat) : Bool := u ≤ 0x1F || (0x7F ≤ u && u ≤ 0x9F)

/-- A high-surrogate code unit `[\uD800-\uDBFF]`. -/
def isHighB (u : Nat) : Bool := 0xD800 ≤ u && u ≤ 0xDBFF

/-- A low-surrogate code unit `[\uDC00-\uDFFF]`. -/
def isLowB (u : Nat) : Bool := 0xDC00 ≤ u && u ≤ 0xDFFF

/-- The global replacement of the surrogate regex on line 14 of
`src/utils/telegramUtils.ts`:
`/[\uD800-\uDBFF](?![\uDC00-\uDFFF])|(?:[^\uD800-\uDBFF]|^)[\uDC00-\uDFFF]/g`.
At each position the engine first tries a lone high surrogate (negative
lookahead for a following low surrogate), then a non-high-surrogate unit
followed by a low surrogate (a two-unit match), then — at the string start
only — a bare low surrogate; matched units are deleted and scanning
resumes after the match. -/
def surrogateScan : Bool → JsStr → JsStr
  | _, [] => []
  | atStart, [u] =>
    if isHighB u then []
    else if atStart && isLowB u then []
    else [u]
  | atStart, u :: v :: rest =>
    if isHighB u && !isLowB v then surrogateScan false (v :: rest)
    else if !isHighB u && isLowB v then surrogateScan false rest
    else if atStart && isLowB u then surrogateScan false (v :: rest)
    else u :: surrogateScan false (v :: rest)

/-- A JavaScript `String.prototype.trim` whitespace code unit
(WhiteSpace and LineTerminator productions). -/
def isJsWsB (u : Nat) : Bool :=
  (9 ≤ u && u ≤ 13) || u == 32 || u == 0xA0 || u == 0x1680 ||
  (0x2000 ≤ u && u ≤ 0x200A) || u == 0x2028 || u == 0x2029 ||
  u == 0x202F || u == 0x205F || u == 0x3000 || u == 0xFEFF

/-- JavaScript `trim()`: drop whitespace from both ends. -/
def jsTrim (l : JsStr) : JsStr :=
  ((l.dropWhile isJsWsB).reverse.dropWhile isJsWsB).reverse

/-- `sanitizeText` (`src/utils/telegramUtils.ts` lines 10-17): remove
control characters, apply the surrogate regex, trim, and truncate to 1000
code units.  A missing (`undefined`) argument is modelled as `[]`, which
the `if (!text) return ""` guard maps to the empty string. -/
def sanitizeText (text : JsStr) : JsStr :=
  if text = [] then []
  else ((surrogateScan true (text.filter (fun u => !isControlB u))).dropWhile
      isJsWsB).reverse.dropWhile isJsWsB |>.reverse |>.take 1000

/-- Specification-side checker: a code-unit sequence is well paired when
every high surrogate is immediately followed by a low surrogate and no low
surrogate appears unpaired ("zero unpaired surrogate code units"). -/
def wellPaired : JsStr → Bool
  | [] => true
  | u :: rest =>
    if isHighB u then
      match rest with
      | v :: rest' => if isLowB v then wellPaired rest' else false
      | [] => false
    else if isLowB u then false
    else wellPaired rest

lemma surrogateScan_subset : ∀ (b : Bool) (l : JsStr), ∀ u ∈ surrogateScan b l, u ∈ l := by
  intro b l
  induction b, l using surrogateScan.induct with
  | case1 => intro u hu; cases hu
  | case2 atStart u h1 =>
    intro x hx
    simp only [surrogateScan, h1, if_true] at hx
    cases hx
  | case3 atStart u h1 h2 =>
    intro x hx
    simp only [surrogateScan, h1, h2, if_false, if_true] at hx
    cases hx
  | case4 atStart u h1 h2 =>
    intro x hx
    simp only [surrogateScan, h1, h2, if_false] at hx
    exact hx
  | case5 atStart u v rest h1 ih =>
    intro x hx
    simp only [surrogateScan, h1, if_true] at hx
    exact List.mem_cons_of_mem u (ih x hx)
  | case6 atStart u v rest h1 h2 ih =>
    intro x hx
    simp only [surrogateScan, h1, h2, if_false, if_true] at hx
    exact List.mem_cons_of_mem u (List.mem_cons_of_mem v (ih x hx))
  | case7 atStart u v rest h1 h2 h3 ih =>
    intro x hx
    simp only [surrogateScan, h1, h2, h3, if_false, if_true] at hx
    exact List.mem_cons_of_mem u (ih x hx)
  | case8 atStart u v rest h1 h2 h3 ih =>
    intro x hx
    simp only [surrogateScan, h1, h2, h3, if_false] at hx
    rcases List.mem_cons.mp hx with h | h
    · exact h ▸ List.mem_cons_self u (v :: rest)
    · exact List.mem_cons_of_mem u (ih x h)

lemma surrogateScan_length_le : ∀ (b : Bool) (l : JsStr),
    (surrogateScan b l).length ≤ l.length := by
  intro b l
  induction b, l using surrogateScan.induct with
  | case1 => simp [surrogateScan]
  | case2 atStart u h1 => simp [surrogateScan, h1]
  | case3 atStart u h1 h2 => simp [surrogateScan, h1, h2]
  | case4 atStart u h1 h2 => simp [surrogateScan, h1, h2]
  | case5 atStart u v rest h1 ih =>
    simp only [surrogateScan, h1, if_true, List.length_cons]
    exact Nat.le_trans ih (Nat.le_succ _)
  | case6 atStart u v rest h1 h2 ih =>
    simp [surrogateScan, h1, h2]
    omega
  | case7 atStart u v rest h1 h2 h3 ih =>
    simp only [surrogateScan, h1, h2, h3, if_false, if_true, List.length_cons]
    exact Nat.le_trans ih (Nat.le_succ _)
  | case8 atStart u v rest h1 h2 h3 ih =>
    simp [surrogateScan, h1, h2, h3]
    simp only [List.length_cons] at ih
    omega

lemma head_dropWhile_not (p : Nat → Bool) (l : List Nat) :
    ∀ u, (l.dropWhile p).head? = some u → p u = false := by
  induction l with
  | nil => intro u h; cases h
  | cons a t ih =>
    intro u h
    by_cases hp : p a
    · rw [List.dropWhile_cons_of_pos hp] at h
      exact ih u h
    · rw [List.dropWhile_cons_of_neg hp] at h
      simp only [List.head?_cons, Option.some.injEq] at h
      rw [← h]
      exact Bool.not_eq_true (p a) ▸ hp

lemma head_of_isPrefix {l t : List Nat} (h : l <+: t) :
    ∀ u, l.head? = some u → t.head? = some u := by
  rcases h with ⟨r, rfl⟩
  intro u hu
  cases l with
  | nil => cases hu
  | cons a l => simpa using hu

/-- `Chat` (`src/types.ts` lines 7-15). -/
structure Chat where
  id : JsStr
  username : JsStr
  title : JsStr
  ty : ChatType
  unreadCount : Nat
  lastMessage : JsStr
  description : JsStr
deriving DecidableEq, Repr

/-- `TelegramEntity` (`src/types.ts` lines 50-59); `megagroup` is `false`
when the source field is absent, matching JavaScript truthiness. -/
structure TelegramEntity where
  id : Option Nat
  className : Option String
  megagroup : Bool
  username : Option JsStr
  title : Option JsStr
  firstName : Option JsStr
  about : Option JsStr
deriving DecidableEq, Repr

/-- `TelegramDialog` (`src/types.ts` lines 61-73); `message` models the
optional chain `dialog.message?.message`. -/
structure TelegramDialog where
  entity : Option TelegramEntity
  unreadCount : Option Nat
  message : Option JsStr
deriving DecidableEq, Repr

/-- JavaScript `a || b` on an optional string: the fallback is used when
the value is absent or empty. -/
def jsOr (a : Option JsStr) (b : JsStr) : JsStr :=
  match a with
  | some s => if s = [] then b else s
  | none => b

/-- `formatDialog` (`src/utils/telegramUtils.ts` lines 44-75): `null` when
the dialog has no entity, otherwise a sanitized `Chat` whose id is the
class-prefixed decimal entity id and whose last-message preview is
truncated to 100 units before sanitization. -/
def formatDialog (dialog : TelegramDialog) : Option Chat :=
  match dialog.entity with
  | none => none
  | some entity =>
    let idStr : JsStr := match entity.id with | some n => natRepr n | none => []
    let tp :=
      if entity.className = some "Channel" then
        ((if entity.megagroup then ChatType.group else ChatType.channel),
          jstr "-100" ++ idStr)
      else if entity.className = some "Chat" then
        (ChatType.group, jstr "-" ++ idStr)
      else (ChatType.priv, idStr)
    if tp.2 = [] then none
    else some {
      id := tp.2
      username := entity.username.getD []
      title := sanitizeText (jsOr entity.title (jsOr entity.firstName (jstr "Unknown Chat")))
      ty := tp.1
      unreadCount := dialog.unreadCount.getD 0
      lastMessage := sanitizeText ((dialog.message.getD []).take 100)
      description := sanitizeText (entity.about.getD []) }

lemma sanitizeText_mem {text : JsStr} {u : Nat} (hu : u ∈ sanitizeText text) :
    u ∈ text.filter (fun v => !isControlB v) := by
  unfold sanitizeText at hu
  by_cases h0 : text = []
  · rw [if_pos h0] at hu
    cases hu
  · rw [if_neg h0] at hu
    have h1 := List.take_subset 1000 _ hu
    rw [List.mem_reverse] at h1
    have h2 := (List.dropWhile_suffix isJsWsB).sublist.subset h1
    rw [List.mem_reverse] at h2
    have h3 := (List.dropWhile_suffix isJsWsB).sublist.subset h2
    exact surrogateScan_subset _ _ u h3

lemma sanitizeText_length_le (text : JsStr) :
    (sanitizeText text).length ≤ text.length := by
  unfold sanitizeText
  by_cases h0 : text = []
  · simp [h0]
  · rw [if_neg h0]
    have h1 := (List.take_sublist 1000
      (((surrogateScan true (text.filter fun u => !isControlB u)).dropWhile
        isJsWsB).reverse.dropWhile isJsWsB).reverse).length_le
    have h2 := (List.dropWhile_suffix (l :=
      ((surrogateScan true (text.filter fun u => !isControlB u)).dropWhile
        isJsWsB).reverse) isJsWsB).sublist.length_le
    have h3 := (List.dropWhile_suffix (l :=
      surrogateScan true (text.filter fun u => !isControlB u)) isJsWsB).sublist.length_le
    have h4 := surrogateScan_length_le true (text.filter fun u => !isControlB u)
    have h5 := (List.filter_sublist (p := fun u => !isControlB u) text).length_le
    simp only [List.length_reverse] at *
    omega

lemma formatDialog_lastMessage {d : TelegramDialog} {c : Chat}
    (h : formatDialog d = some c) :
    c.lastMessage = sanitizeText ((d.message.getD []).take 100) := by
  obtain ⟨ent, urc, msg⟩ := d
  cases ent with
  | none => simp [formatDialog] at h
  | some e =>
    simp only [formatDialog] at h
    by_cases h1 : e.className = some "Channel" <;>
    by_cases h2 : e.className = some "Chat" <;>
    simp only [h1, h2, reduceIte] at h <;>
    split at h <;>
    cases h <;>
    rfl

/-- Input for the C2 counterexample: contains a C0 control unit (`0`),
unpaired low surrogates, and 1006 > 1000 code units. -/
def sanitizeCounterexampleInput : JsStr :=
  [97, 0xDC00, 0xDC00, 0] ++ List.replicate 998 98 ++ [32, 98, 98, 98]

/-- Claim C2 (counterexample): on an input containing control characters,
unpaired surrogates and more than 1000 units, `sanitizeText` returns an
output that still contains an unpaired low surrogate (the regex consumes
`"a\uDC00"` as one two-unit match and leaves the second `\uDC00`) and that
ends in a whitespace unit (truncation happens after trimming). -/
theorem sanitizeText_claim_counterexample :
    sanitizeCounterexampleInput.any isControlB = true ∧
    wellPaired sanitizeCounterexampleInput = false ∧
    1000 < sanitizeCounterexampleInput.length ∧
    wellPaired (sanitizeText sanitizeCounterexampleInput) = false ∧
    (sanitizeText sanitizeCounterexampleInput).getLastD 0 = 32 ∧
    isJsWsB 32 = true := by decide

/-- Claim C2 (amended): `sanitizeText` always returns an output with zero
control characters, no leading whitespace, and at most 1000 code units,
and the last-message preview produced by `formatDialog` has at most 100
code units.  (The surrogate-stripping regex can leave an unpaired low
surrogate behind, and truncation after trimming can leave trailing
whitespace, so those two clauses of the original claim are dropped.) -/
theorem sanitizeText_amended (text : JsStr) :
    (∀ u ∈ sanitizeText text, isControlB u = false) ∧
    (sanitizeText text).length ≤ 1000 ∧
    (∀ u, (sanitizeText text).head? = some u → isJsWsB u = false) ∧
    (∀ dialog chat, formatDialog dialog = some chat →
      chat.lastMessage.length ≤ 100) := by
  refine ⟨?_, ?_, ?_, ?_⟩
  · intro u hu
    have hm := sanitizeText_mem hu
    have := (List.mem_filter.mp hm).2
    simpa using this
  · unfold sanitizeText
    by_cases h0 : text = []
    · simp [h0]
    · rw [if_neg h0]
      exact List.length_take_le 1000 _
  · intro u hu
    unfold sanitizeText at hu
    by_cases h0 : text = []
    · rw [if_pos h0] at hu
      cases hu
    · rw [if_neg h0] at hu
      have hC : (((surrogateScan true (text.filter fun v => !isControlB v)).dropWhile
          isJsWsB).reverse.dropWhile isJsWsB).reverse.head? = some u :=
        head_of_isPrefix ⟨_, List.take_append_drop 1000 _⟩ u hu
      have hCB : (((surrogateScan true (text.filter fun v => !isControlB v)).dropWhile
          isJsWsB).reverse.dropWhile isJsWsB).reverse <+:
          (surrogateScan true (text.filter fun v => !isControlB v)).dropWhile isJsWsB := by
        rw [← List.reverse_suffix]
        simpa using List.dropWhile_suffix isJsWsB
      have hB := head_of_isPrefix hCB u hC
      exact head_dropWhile_not isJsWsB _ u hB
  · intro dialog chat h
    rw [formatDialog_lastMessage h]
    have h1 := sanitizeText_length_le ((dialog.message.getD []).take 100)
    have h2 := List.length_take_le 100 (dialog.message.getD [])
    omega

/-- Dialog used by the C2 and C5 witnesses: a plain user entity with a
five-character message. -/
def witnessDialog : TelegramDialog :=
  ⟨some ⟨some 42, none, false, none, none, none, none⟩, none, some (jstr "hello")⟩

/-- The chat `formatDialog` produces for `witnessDialog`. -/
def witnessChat : Chat :=
  ⟨natRepr 42, [], jstr "Unknown Chat", ChatType.priv, 0, jstr "hello", []⟩

/-- Claim C2 (witness): the amended sanitization facts at the concrete
input `" hi"` and the concrete dialog `witnessDialog`. -/
theorem sanitizeText_amended_witness :
    isControlB 104 = false ∧ isJsWsB 104 = false ∧
    witnessChat.lastMessage.length ≤ 100 :=
  ⟨(sanitizeText_amended (jstr " hi")).1 104 (by decide),
   (sanitizeText_amended (jstr " hi")).2.2.1 104 (by decide),
   (sanitizeText_amended (jstr " hi")).2.2.2 witnessDialog witnessChat (by decide)⟩

/-- `MAX_RETRY_ATTEMPTS` (`src/index.tsx` line 234). -/
def MAX_RETRY_ATTEMPTS : Nat := 3

/-- Observable trace of the `initTelegram` connect loop: how many
transport attempts ran, the delays (ms) between consecutive attempts, and
whether a connection was finally established. -/
structure ConnectTrace where
  attempts : Nat
  delays : List Nat
  connected : Bool
deriving DecidableEq, Repr

/-- The retry skeleton of `initTelegram` (`src/index.tsx` lines 236-284):
each call performs one transport attempt (`client.connect()`); on failure,
if `retryAttempt < MAX_RETRY_ATTEMPTS` it waits 2000 ms and recurses with
`retryAttempt + 1`, otherwise it rethrows the connection error.
`ok k` tells whether the k-th attempt succeeds. -/
def initTelegram (ok : Nat → Bool) (retryAttempt : Nat) : ConnectTrace :=
  if ok retryAttempt then ⟨1, [], true⟩
  else if h : retryAttempt < MAX_RETRY_ATTEMPTS then
    let r := initTelegram ok (retryAttempt + 1)
    ⟨1 + r.attempts, 2000 :: r.delays, r.connected⟩
  else ⟨1, [], false⟩
termination_by MAX_RETRY_ATTEMPTS - retryAttempt
decreasing_by simp only [MAX_RETRY_ATTEMPTS] at *; omega

/-- Claim C3 (counterexample): with a transport that always fails, the
code performs 4 attempts (1 initial + `MAX_RETRY_ATTEMPTS` retries), not
the 3 the claim states. -/
theorem connect_retry_counterexample :
    (initTelegram (fun _ => false) 0).attempts ≠ 3 := by
  have h4 : initTelegram (fun _ => false) 0 = ⟨4, [2000, 2000, 2000], false⟩ := by
    simp [initTelegram, MAX_RETRY_ATTEMPTS]
  rw [h4]
  decide

/-- Claim C3 (amended): on persistent transport failure, `initTelegram`
attempts the transport exactly 4 times (one initial attempt plus
`MAX_RETRY_ATTEMPTS = 3` retries), observes a fixed 2000 ms delay between
consecutive attempts (three delays), and only after the final failed
attempt surfaces the connection error to the caller. -/
theorem connect_retry_amended (ok : Nat → Bool) (h : ∀ k, ok k = false) :
    initTelegram ok 0 = ⟨4, [2000, 2000, 2000], false⟩ := by
  simp [initTelegram, MAX_RETRY_ATTEMPTS, h]

/-- Claim C3 (witness): the amended retry trace for the always-failing
transport. -/
theorem connect_retry_amended_witness :
    initTelegram (fun _ => false) 0 = ⟨4, [2000, 2000, 2000], false⟩ :=
  connect_retry_amended (fun _ => false) (fun _ => rfl)

/-- JavaScript `String.prototype.includes`: the needle occurs as a
contiguous run somewhere in the haystack. -/
def listContains (hay needle : List Char) : Bool :=
  match hay with
  | [] => needle.isEmpty
  | _ :: t => needle.isPrefixOf hay || listContains t needle

/-- `message.includes(pattern)` on JavaScript strings. -/
def containsStr (hay needle : String) : Bool := listContains hay.data needle.data

/-- The host key-value store (`LocalStorage`), a single-writer map from
keys to string values. -/
abbrev Store := String → Option String

/-- `LocalStorage.setItem`. -/
def setItem (st : Store) (k v : String) : Store :=
  fun q => if q = k then some v else st q

/-- `LocalStorage.removeItem`. -/
def removeItem (st : Store) (k : String) : Store :=
  fun q => if q = k then none else st q

/-- `SESSION_KEY` (`src/types.ts` line 3). -/
def SESSION_KEY : String := "telegram-session-v1"

/-- The session write performed by the authorization poller on success
(`src/index.tsx` lines 341-357): `LocalStorage.setItem(SESSION_KEY, session)`. -/
def saveSessionOnAuth (st : Store) (session : String) : Store :=
  setItem st SESSION_KEY session

/-- `handleError` (`src/index.tsx` lines 496-510): if the message contains
`AUTH_KEY_UNREGISTERED` the persisted session is removed; a failure toast
is shown with the untruncated message. -/
def handleErrorIndex (st : Store) (msg : String) : Store × String :=
  (if containsStr msg "AUTH_KEY_UNREGISTERED" then removeItem st SESSION_KEY else st,
   msg)

/-- `handleError` in the folder-enabled command (`src/index.tsx` variant in
the unnamed source, lines 417-433) and in `src/openchat.tsx` lines 419-436:
same session-removal rule, but the toast message is truncated by
`message.substring(0, 100)`. -/
def handleErrorOpenChat (st : Store) (msg : String) : Store × String :=
  (if containsStr msg "AUTH_KEY_UNREGISTERED" then removeItem st SESSION_KEY else st,
   String.mk (msg.data.take 100))

/-- Claim C4 (counterexample): the persisted session key is
`"telegram-session-v1"`, not `"session-v1"`. -/
theorem session_key_counterexample : SESSION_KEY ≠ "session-v1" := by decide

/-- Claim C4 (amended): the session blob is stored under the exact key
`"telegram-session-v1"`, written on authentication success and deleted
when the backend reports the credential as unregistered
(`AUTH_KEY_UNREGISTERED`). -/
theorem session_record_amended (st : Store) (session msg : String) :
    SESSION_KEY = "telegram-session-v1" ∧
    saveSessionOnAuth st session SESSION_KEY = some session ∧
    (containsStr msg "AUTH_KEY_UNREGISTERED" = true →
      (handleErrorIndex st msg).1 SESSION_KEY = none) := by
  refine ⟨rfl, ?_, ?_⟩
  · simp [saveSessionOnAuth, setItem]
  · intro h
    simp [handleErrorIndex, h, removeItem]

/-- Claim C4 (witness): the amended session-record facts at a concrete
store, session blob, and revocation message. -/
theorem session_record_amended_witness :
    saveSessionOnAuth (fun _ => none) "blob" SESSION_KEY = some "blob" ∧
    (handleErrorIndex (fun _ => none) "AUTH_KEY_UNREGISTERED").1 SESSION_KEY = none :=
  ⟨(session_record_amended (fun _ => none) "blob" "AUTH_KEY_UNREGISTERED").2.1,
   (session_record_amended (fun _ => none) "blob" "AUTH_KEY_UNREGISTERED").2.2
     (by decide)⟩

/-- What the `catch` of `handleQRAuth` does with a failed handshake:
either restart the whole `initTelegram` cycle or surface the error to
`handleError`. -/
inductive QRAuthOutcome where
  | restartCycle
  | surfaced
deriving DecidableEq, Repr

/-- The `catch` clause of `handleQRAuth` (`src/index.tsx` lines 361-372):
when the error message contains `AUTH_TOKEN_EXPIRED`, `clearSession()` is
run (removing the persisted session, `src/index.tsx` lines 481-494) and
`initTelegram()` is invoked again; otherwise the error goes to
`handleError`. -/
def handleQRAuthCatch (st : Store) (msg : String) : Store × QRAuthOutcome :=
  if containsStr msg "AUTH_TOKEN_EXPIRED" then
    (removeItem st SESSION_KEY, QRAuthOutcome.restartCycle)
  else (st, QRAuthOutcome.surfaced)

/-- Claim C7: when the backend signals token expiry during the QR
handshake, the controller clears the persisted session and restarts the
whole connect/ensureAuthorized cycle instead of surfacing a fatal
error. -/
theorem auth_token_expired_restart (st : Store) (msg : String)
    (h : containsStr msg "AUTH_TOKEN_EXPIRED" = true) :
    (handleQRAuthCatch st msg).1 SESSION_KEY = none ∧
    (handleQRAuthCatch st msg).2 = QRAuthOutcome.restartCycle := by
  simp [handleQRAuthCatch, h, removeItem]

/-- Claim C7 (witness): the restart behaviour at a concrete expiry
message. -/
theorem auth_token_expired_restart_witness :
    (handleQRAuthCatch (fun _ => none) "AUTH_TOKEN_EXPIRED (caused by auth.exportLoginToken)").1
        SESSION_KEY = none ∧
    (handleQRAuthCatch (fun _ => none) "AUTH_TOKEN_EXPIRED (caused by auth.exportLoginToken)").2 =
      QRAuthOutcome.restartCycle :=
  auth_token_expired_restart (fun _ => none)
    "AUTH_TOKEN_EXPIRED (caused by auth.exportLoginToken)" (by decide)

/-- Claim C8 (counterexample): the boundary handler of `src/index.tsx`
emits the failure toast with the untruncated message — a 150-character
error message is displayed with all 150 characters. -/
theorem handleError_truncation_counterexample :
    ¬ ((handleErrorIndex (fun _ => none)
        (String.mk (List.replicate 150 'a'))).2.data.length ≤ 100) := by decide

/-- Claim C8 (amended): every non-transport error goes to a boundary
handler that classifies by message content and removes the persisted
session exactly when the message contains the backend's
`AUTH_KEY_UNREGISTERED` condition; the openchat/folder variants truncate
the user-visible failure message to 100 characters, while the
`src/index.tsx` variant emits it verbatim. -/
theorem handleError_boundary_amended (st : Store) (msg : String) :
    (containsStr msg "AUTH_KEY_UNREGISTERED" = true →
      (handleErrorIndex st msg).1 SESSION_KEY = none ∧
      (handleErrorOpenChat st msg).1 SESSION_KEY = none) ∧
    (containsStr msg "AUTH_KEY_UNREGISTERED" = false →
      (handleErrorIndex st msg).1 = st ∧ (handleErrorOpenChat st msg).1 = st) ∧
    (handleErrorOpenChat st msg).2.data.length ≤ 100 ∧
    (handleErrorIndex st msg).2 = msg := by
  refine ⟨?_, ?_, ?_, rfl⟩
  · intro h
    constructor <;> simp [handleErrorIndex, handleErrorOpenChat, h, removeItem]
  · intro h
    constructor <;> simp [handleErrorIndex, handleErrorOpenChat, h]
  · simp [handleErrorOpenChat]

/-- Claim C8 (witness): the amended boundary-handler facts at a concrete
revocation message. -/
theorem handleError_boundary_amended_witness :
    (handleErrorIndex (fun _ => none) "AUTH_KEY_UNREGISTERED x").1 SESSION_KEY = none ∧
    (handleErrorOpenChat (fun _ => none) "AUTH_KEY_UNREGISTERED x").1 SESSION_KEY = none ∧
    (handleErrorOpenChat (fun _ => none) "AUTH_KEY_UNREGISTERED x").2.data.length ≤ 100 :=
  ⟨((handleError_boundary_amended (fun _ => none) "AUTH_KEY_UNREGISTERED x").1 (by decide)).1,
   ((handleError_boundary_amended (fun _ => none) "AUTH_KEY_UNREGISTERED x").1 (by decide)).2,
   (handleError_boundary_amended (fun _ => none) "AUTH_KEY_UNREGISTERED x").2.2.1⟩

/-- The formatting loop of `getChats`
(`src/services/telegramService.ts` lines 83-93): each dialog is passed to
`formatDialog`; `null` results are dropped, the rest are collected in
order. -/
def getChats : List TelegramDialog → List Chat
  | [] => []
  | d :: rest =>
    match formatDialog d with
    | some c => c :: getChats rest
    | none => getChats rest

lemma getChats_length (ds : List TelegramDialog) :
    (getChats ds).length + ds.countP (fun d => (formatDialog d).isNone) = ds.length := by
  induction ds with
  | nil => rfl
  | cons d rest ih =>
    cases hf : formatDialog d with
    | none => simp [getChats, hf, List.countP_cons]; omega
    | some c => simp [getChats, hf, List.countP_cons]; omega

lemma countP_congr_mem {α : Type} (l : List α) (p q : α → Bool)
    (h : ∀ a ∈ l, p a = q a) : l.countP p = l.countP q := by
  induction l with
  | nil => rfl
  | cons a t ih =>
    have ha := h a (List.mem_cons_self a t)
    have ht := fun b hb => h b (List.mem_cons_of_mem a hb)
    simp [List.countP_cons, ha, ih ht]

/-- Claim C5: `formatDialog` returns `null` for every dialog whose entity
is missing, and the chat-listing loop drops those nulls without aborting:
a fetch of ten dialogs of which exactly one lacks an entity (the other
nine formatting successfully) yields exactly nine chats. -/
theorem formatDialog_null_tolerance (ds : List TelegramDialog)
    (hlen : ds.length = 10)
    (hone : ds.countP (fun d => d.entity.isNone) = 1)
    (hval : ∀ d ∈ ds, d.entity.isSome = true → (formatDialog d).isSome = true) :
    (getChats ds).length = 9 ∧
    ∀ d : TelegramDialog, d.entity = none → formatDialog d = none := by
  constructor
  · have hcong : ∀ d ∈ ds, ((formatDialog d).isNone : Bool) = d.entity.isNone := by
      intro d hd
      cases he : d.entity with
      | none => simp [formatDialog, he]
      | some e =>
        have hs := hval d hd (by simp [he])
        cases hf : formatDialog d with
        | none => rw [hf] at hs; cases hs
        | some c => simp
    have hc := countP_congr_mem ds _ _ hcong
    have hg := getChats_length ds
    rw [hc, hone, hlen] at hg
    omega
  · intro d h
    simp [formatDialog, h]

/-- Ten dialogs: nine valid user entities and one entity-less record. -/
def witnessDialogs : List TelegramDialog :=
  (List.range 9).map
    (fun k => ⟨some ⟨some (k + 1), none, false, none, none, none, none⟩, none, none⟩) ++
    [⟨none, none, none⟩]

/-- Claim C5 (witness): the concrete ten-dialog fetch with one entity-less
record yields nine chats. -/
theorem formatDialog_null_tolerance_witness :
    (getChats witnessDialogs).length = 9 :=
  (formatDialog_null_tolerance witnessDialogs (by decide) (by decide) (by decide)).1

/-- A backend `InputPeer` as read from a dialog filter's `include_peers`
or `pinned_peers`: exactly one of the three id fields is set. -/
structure InputPeer where
  userId : Option Nat
  channelId : Option Nat
  chatId : Option Nat
deriving DecidableEq, Repr

/-- JavaScript truthiness of an optional numeric field. -/
def truthyNat (o : Option Nat) : Bool :=
  match o with
  | some n => n != 0
  | none => false

/-- A cached peer record `{type, id}` as persisted by `handleFolderSelect`. -/
structure PeerRef where
  ty : JsStr
  id : JsStr
deriving DecidableEq, Repr

/-- The peer-to-string mapping of `handleFolderSelect` (unnamed
`src/index.tsx` variant, lines 676-681 and 698-705): a user id stays bare,
a channel id gets `"-100"`, a legacy chat id gets `"-"`; peers with none
of the three ids map to `null` and are filtered out. -/
def peerToRef (p : InputPeer) : Option PeerRef :=
  if truthyNat p.userId then some ⟨jstr "user", natRepr (p.userId.getD 0)⟩
  else if truthyNat p.channelId then
    some ⟨jstr "channel", jstr "-100" ++ natRepr (p.channelId.getD 0)⟩
  else if truthyNat p.chatId then
    some ⟨jstr "chat", jstr "-" ++ natRepr (p.chatId.getD 0)⟩
  else none

/-- The pinned-peer merge loop of `handleFolderSelect` (lines 711-715):
append each pinned peer whose id is not already present. -/
def dedupAppend (acc : List PeerRef) (ps : List PeerRef) : List PeerRef :=
  ps.foldl (fun acc p => if acc.any (fun q => q.id == p.id) then acc else acc ++ [p]) acc

/-- The persisted folder-selection state: `"selected-folder-id"`,
`"folder-include-peers"` and `"folder-pinned-peers"` (unnamed
`src/index.tsx` variant, lines 29-31). -/
structure FolderCacheState where
  selectedFolderId : Nat
  includeCache : Option (List PeerRef)
  pinnedCache : Option (List PeerRef)
deriving DecidableEq, Repr

/-- The two cached peer lists together: the stored membership set. -/
def storedPeers (st : FolderCacheState) : List PeerRef :=
  st.includeCache.getD [] ++ st.pinnedCache.getD []

/-- The filtering loop of `handleFolderSelect` (lines 737-747): format
each dialog and keep only chats whose id equals some cached peer id. -/
def filterChatsByPeers (dialogs : List TelegramDialog) (allPeers : List PeerRef) :
    List Chat :=
  match dialogs with
  | [] => []
  | d :: rest =>
    match formatDialog d with
    | some c =>
      if allPeers.any (fun p => p.id == c.id) then
        c :: filterChatsByPeers rest allPeers
      else filterChatsByPeers rest allPeers
    | none => filterChatsByPeers rest allPeers

/-- `handleFolderSelect` (unnamed `src/index.tsx` variant, lines 660-761):
persists the selected folder id, caches the include-peer and pinned-peer
id lists for a non-zero folder (clearing them otherwise), merges the two
lists deduplicated by id, and — when the merged list is non-empty —
returns the dialog snapshot filtered to chats whose id is in that list
(`none` models the unfiltered `loadChats` fallback). -/
def handleFolderSelect (st : FolderCacheState) (folderId : Nat)
    (includePeers pinnedPeers : List InputPeer) (dialogs : List TelegramDialog) :
    FolderCacheState × Option (List Chat) :=
  let st0 : FolderCacheState := { st with selectedFolderId := folderId }
  let incIds := includePeers.filterMap peerToRef
  let s1 : FolderCacheState × List PeerRef :=
    if folderId ≠ 0 ∧ includePeers ≠ [] then
      ({ st0 with includeCache := some incIds }, incIds)
    else ({ st0 with includeCache := none }, [])
  let pinIds := pinnedPeers.filterMap peerToRef
  let s2 : FolderCacheState × List PeerRef :=
    if folderId ≠ 0 ∧ pinnedPeers ≠ [] then
      ({ s1.1 with pinnedCache := some pinIds }, dedupAppend s1.2 pinIds)
    else ({ s1.1 with pinnedCache := none }, s1.2)
  (s2.1,
   if folderId ≠ 0 ∧ s2.2 ≠ [] then some (filterChatsByPeers dialogs s2.2) else none)

lemma filterChatsByPeers_mem {dialogs : List TelegramDialog}
    {allPeers : List PeerRef} {c : Chat} (hc : c ∈ filterChatsByPeers dialogs allPeers) :
    allPeers.any (fun p => p.id == c.id) = true := by
  induction dialogs with
  | nil => cases hc
  | cons d rest ih =>
    unfold filterChatsByPeers at hc
    cases hf : formatDialog d with
    | none => rw [hf] at hc; exact ih hc
    | some c0 =>
      rw [hf] at hc
      by_cases ha : allPeers.any (fun p => p.id == c0.id) = true
      · simp only [ha, if_true, reduceIte] at hc
        rcases List.mem_cons.mp hc with h | h
        · rw [h]; exact ha
        · exact ih h
      · simp only [ha, if_false, reduceIte] at hc
        exact ih hc

lemma dedupAppend_subset : ∀ (ps acc : List PeerRef) (x : PeerRef),
    x ∈ dedupAppend acc ps → x ∈ acc ∨ x ∈ ps := by
  intro ps
  induction ps with
  | nil => intro acc x hx; exact Or.inl hx
  | cons p ps ih =>
    intro acc x hx
    unfold dedupAppend at hx
    rw [List.foldl_cons] at hx
    by_cases hc : acc.any (fun q => q.id == p.id) = true
    · rw [if_pos hc] at hx
      rcases ih acc x hx with h | h
      · exact Or.inl h
      · exact Or.inr (List.mem_cons_of_mem p h)
    · rw [if_neg hc] at hx
      rcases ih (acc ++ [p]) x hx with h | h
      · rcases List.mem_append.mp h with h | h
        · exact Or.inl h
        · exact Or.inr (List.mem_cons.mpr (Or.inl (List.mem_singleton.mp h)))
      · exact Or.inr (List.mem_cons_of_mem p h)

lemma dedupAppend_of_nodup : ∀ (ps acc : List PeerRef),
    ((acc ++ ps).map PeerRef.id).Nodup → dedupAppend acc ps = acc ++ ps := by
  intro ps
  induction ps with
  | nil => intro acc _; simp [dedupAppend]
  | cons p ps ih =>
    intro acc hnd
    have hnotin : p.id ∉ acc.map PeerRef.id := by
      intro hmem
      have hsplit : ((acc ++ p :: ps).map PeerRef.id) =
          acc.map PeerRef.id ++ p.id :: ps.map PeerRef.id := by simp
      rw [hsplit] at hnd
      rcases List.nodup_append.mp hnd with ⟨_, _, hdisj⟩
      exact hdisj hmem (List.mem_cons_self _ _)
    have hany : acc.any (fun q => q.id == p.id) = false := by
      rw [Bool.eq_false_iff]
      intro hany
      rcases List.any_eq_true.mp hany with ⟨q, hq, hbeq⟩
      have : q.id = p.id := by simpa using hbeq
      exact hnotin (this ▸ List.mem_map_of_mem PeerRef.id hq)
    unfold dedupAppend
    rw [List.foldl_cons, if_neg (by simp [hany])]
    have hnd' : (((acc ++ [p]) ++ ps).map PeerRef.id).Nodup := by
      rw [List.append_assoc]
      simpa using hnd
    have := ih (acc ++ [p]) hnd'
    unfold dedupAppend at this
    rw [this, List.append_assoc]
    rfl

/-- Claim C6: selecting a folder persists the folder id as the new
default; selecting folder 0 clears both cached peer lists regardless of
prior state; every chat returned by the filtered listing has its id in
the stored peer set; and for a non-zero folder both peer lists are
persisted, their merge being the deduplicated union (so two include-peers
plus one distinct pinned-peer store three unique ids). -/
theorem folder_select_semantics (st : FolderCacheState) (folderId : Nat)
    (includePeers pinnedPeers : List InputPeer) (dialogs : List TelegramDialog) :
    (handleFolderSelect st folderId includePeers pinnedPeers dialogs).1.selectedFolderId
        = folderId ∧
    (folderId = 0 →
      (handleFolderSelect st folderId includePeers pinnedPeers dialogs).1.includeCache
          = none ∧
      (handleFolderSelect st folderId includePeers pinnedPeers dialogs).1.pinnedCache
          = none) ∧
    (∀ cs, (handleFolderSelect st folderId includePeers pinnedPeers dialogs).2 = some cs →
      ∀ c ∈ cs, ∃ p ∈ storedPeers
        (handleFolderSelect st folderId includePeers pinnedPeers dialogs).1,
        p.id = c.id) ∧
    (folderId ≠ 0 → includePeers ≠ [] → pinnedPeers ≠ [] →
      (handleFolderSelect st folderId includePeers pinnedPeers dialogs).1.includeCache
          = some (includePeers.filterMap peerToRef) ∧
      (handleFolderSelect st folderId includePeers pinnedPeers dialogs).1.pinnedCache
          = some (pinnedPeers.filterMap peerToRef) ∧
      ((((includePeers.filterMap peerToRef) ++ (pinnedPeers.filterMap peerToRef)).map
          PeerRef.id).Nodup →
        dedupAppend (includePeers.filterMap peerToRef) (pinnedPeers.filterMap peerToRef)
          = includePeers.filterMap peerToRef ++ pinnedPeers.filterMap peerToRef)) := by
  have hsub : ∀ (ps : List PeerRef) (c : Chat),
      ps.any (fun p => p.id == c.id) = true → ∃ p ∈ ps, p.id = c.id := by
    intro ps c h
    rcases List.any_eq_true.mp h with ⟨p, hp, hbeq⟩
    exact ⟨p, hp, by simpa using hbeq⟩
  by_cases hI : folderId ≠ 0 ∧ includePeers ≠ []
  · by_cases hP : folderId ≠ 0 ∧ pinnedPeers ≠ []
    · have heq : handleFolderSelect st folderId includePeers pinnedPeers dialogs =
          (⟨folderId, some (includePeers.filterMap peerToRef),
            some (pinnedPeers.filterMap peerToRef)⟩,
           if folderId ≠ 0 ∧
               dedupAppend (includePeers.filterMap peerToRef)
                 (pinnedPeers.filterMap peerToRef) ≠ [] then
             some (filterChatsByPeers dialogs
               (dedupAppend (includePeers.filterMap peerToRef)
                 (pinnedPeers.filterMap peerToRef)))
           else none) := by
        simp only [handleFolderSelect]
        rw [if_pos hI, if_pos hP]
      rw [heq]
      refine ⟨rfl, fun h0 => absurd h0 hI.1, ?_, ?_⟩
      · intro cs hcs c hc
        by_cases hF : folderId ≠ 0 ∧
            dedupAppend (includePeers.filterMap peerToRef)
              (pinnedPeers.filterMap peerToRef) ≠ []
        · rw [if_pos hF] at hcs
          rw [← Option.some.inj hcs] at hc
          rcases hsub _ c (filterChatsByPeers_mem hc) with ⟨p, hp, hpid⟩
          refine ⟨p, ?_, hpid⟩
          simp only [storedPeers, Option.getD_some]
          rcases dedupAppend_subset _ _ p hp with h | h
          · exact List.mem_append.mpr (Or.inl h)
          · exact List.mem_append.mpr (Or.inr h)
        · rw [if_neg hF] at hcs
          cases hcs
      · intro _ _ _
        exact ⟨rfl, rfl, fun hnd => dedupAppend_of_nodup _ _ hnd⟩
    · have heq : handleFolderSelect st folderId includePeers pinnedPeers dialogs =
          (⟨folderId, some (includePeers.filterMap peerToRef), none⟩,
           if folderId ≠ 0 ∧ includePeers.filterMap peerToRef ≠ [] then
             some (filterChatsByPeers dialogs (includePeers.filterMap peerToRef))
           else none) := by
        simp only [handleFolderSelect]
        rw [if_pos hI, if_neg hP]
      rw [heq]
      refine ⟨rfl, fun h0 => absurd h0 hI.1, ?_, fun h1 _ h3 => absurd ⟨h1, h3⟩ hP⟩
      intro cs hcs c hc
      by_cases hF : folderId ≠ 0 ∧ includePeers.filterMap peerToRef ≠ []
      · rw [if_pos hF] at hcs
        rw [← Option.some.inj hcs] at hc
        rcases hsub _ c (filterChatsByPeers_mem hc) with ⟨p, hp, hpid⟩
        refine ⟨p, ?_, hpid⟩
        simp only [storedPeers, Option.getD_some, Option.getD_none]
        exact List.mem_append.mpr (Or.inl hp)
      · rw [if_neg hF] at hcs
        cases hcs
  · by_cases hP : folderId ≠ 0 ∧ pinnedPeers ≠ []
    · have heq : handleFolderSelect st folderId includePeers pinnedPeers dialogs =
          (⟨folderId, none, some (pinnedPeers.filterMap peerToRef)⟩,
           if folderId ≠ 0 ∧ dedupAppend [] (pinnedPeers.filterMap peerToRef) ≠ [] then
             some (filterChatsByPeers dialogs
               (dedupAppend [] (pinnedPeers.filterMap peerToRef)))
           else none) := by
        simp only [handleFolderSelect]
        rw [if_neg hI, if_pos hP]
      rw [heq]
      refine ⟨rfl, fun h0 => absurd h0 hP.1, ?_, fun h1 h2 _ => absurd ⟨h1, h2⟩ hI⟩
      intro cs hcs c hc
      by_cases hF : folderId ≠ 0 ∧ dedupAppend [] (pinnedPeers.filterMap peerToRef) ≠ []
      · rw [if_pos hF] at hcs
        rw [← Option.some.inj hcs] at hc
        rcases hsub _ c (filterChatsByPeers_mem hc) with ⟨p, hp, hpid⟩
        refine ⟨p, ?_, hpid⟩
        simp only [storedPeers, Option.getD_some, Option.getD_none]
        rcases dedupAppend_subset _ _ p hp with h | h
        · cases h
        · exact List.mem_append.mpr (Or.inr h)
      · rw [if_neg hF] at hcs
        cases hcs
    · have heq : handleFolderSelect st folderId includePeers pinnedPeers dialogs =
          (⟨folderId, none, none⟩, none) := by
        simp only [handleFolderSelect]
        rw [if_neg hI, if_neg hP]
        simp
      rw [heq]
      refine ⟨rfl, fun _ => ⟨rfl, rfl⟩, ?_, fun h1 h2 _ => absurd ⟨h1, h2⟩ hI⟩
      intro cs hcs
      cases hcs

/-- Two include-peers for the C6 witness. -/
def incW : List InputPeer := [⟨some 1, none, none⟩, ⟨some 2, none, none⟩]

/-- One pinned peer (distinct from the include-peers) for the C6 witness. -/
def pinW : List InputPeer := [⟨some 3, none, none⟩]

/-- A dialog whose formatted chat (user id 1) belongs to the C6 witness
folder. -/
def dlgW : TelegramDialog :=
  ⟨some ⟨some 1, none, false, none, none, none, none⟩, none, none⟩

/-- The chat `formatDialog` produces for `dlgW`. -/
def chatW : Chat := ⟨natRepr 1, [], jstr "Unknown Chat", ChatType.priv, 0, [], []⟩

/-- Claim C6 (witness): selecting folder 7 with two include-peers and one
distinct pinned peer stores the folder id and both peer lists, the
deduplicated union keeps all three unique ids, the filtered listing only
returns chats from the stored set, and selecting folder 0 clears a
previously populated cache. -/
theorem folder_select_semantics_witness :
    (handleFolderSelect ⟨0, none, none⟩ 7 incW pinW [dlgW]).1.selectedFolderId = 7 ∧
    (handleFolderSelect ⟨5, some [⟨jstr "user", natRepr 9⟩], some []⟩ 0 incW pinW
        []).1.includeCache = none ∧
    (handleFolderSelect ⟨5, some [⟨jstr "user", natRepr 9⟩], some []⟩ 0 incW pinW
        []).1.pinnedCache = none ∧
    (handleFolderSelect ⟨0, none, none⟩ 7 incW pinW [dlgW]).1.includeCache =
      some (incW.filterMap peerToRef) ∧
    (handleFolderSelect ⟨0, none, none⟩ 7 incW pinW [dlgW]).1.pinnedCache =
      some (pinW.filterMap peerToRef) ∧
    dedupAppend (incW.filterMap peerToRef) (pinW.filterMap peerToRef) =
      incW.filterMap peerToRef ++ pinW.filterMap peerToRef ∧
    (∃ p ∈ storedPeers (handleFolderSelect ⟨0, none, none⟩ 7 incW pinW [dlgW]).1,
      p.id = chatW.id) := by
  have A := folder_select_semantics ⟨0, none, none⟩ 7 incW pinW [dlgW]
  have B := folder_select_semantics ⟨5, some [⟨jstr "user", natRepr 9⟩], some []⟩ 0
    incW pinW []
  have h4 := A.2.2.2 (by decide) (by decide) (by decide)
  exact ⟨A.1, (B.2.1 rfl).1, (B.2.1 rfl).2, h4.1, h4.2.1, h4.2.2 (by decide),
    A.2.2.1 [chatW] (by decide) chatW (by decide)⟩

/-- The 2FA password challenge: the promise created by the `password`
callback of `signInUserWithQrCode` (`src/index.tsx` lines 315-336),
either still pending or resolved with the delivered secret. -/
inductive Challenge where
  | pending
  | resolved (secret : JsStr)
deriving DecidableEq, Repr

/-- The password-form state of the `Command` component: whether
`passwordResolver` is non-null, the challenge promise, and how many times
the suspended handshake has been resumed. -/
structure AuthFormState where
  resolverPresent : Bool
  challenge : Challenge
  resumes : Nat
deriving DecidableEq, Repr

/-- Resolving a JavaScript promise: a pending promise is settled with the
secret and resumes the awaiting handshake (count 1); resolving an
already-settled promise is a no-op and keeps its value. -/
def resolveChallenge : Challenge → JsStr → Challenge × Nat
  | Challenge.pending, p => (Challenge.resolved p, 1)
  | Challenge.resolved s, _ => (Challenge.resolved s, 0)

/-- The password submit handler (`src/index.tsx` lines 556-593): trim the
input, reject an empty secret, and — only when `passwordResolver` is still
set — call it and set it to `null`. -/
def submitPassword (st : AuthFormState) (input : JsStr) : AuthFormState :=
  let p := jsTrim input
  if p = [] then st
  else if st.resolverPresent then
    let rc := resolveChallenge st.challenge p
    ⟨false, rc.1, st.resumes + rc.2⟩
  else st

/-- Claim C9: after a password challenge has been resolved once with a
non-empty secret, a second resolution attempt in sequence has no effect:
the state is unchanged (no exception is modelled because the handler is
total), no second handshake resumption happens (the resume count stays
at 1), and the delivered secret is unchanged. -/
theorem password_single_resolution (st : AuthFormState) (p1 p2 : JsStr)
    (hres : st.resolverPresent = true) (hch : st.challenge = Challenge.pending)
    (hcount : st.resumes = 0) (hp1 : jsTrim p1 ≠ []) :
    submitPassword st p1 = ⟨false, Challenge.resolved (jsTrim p1), 1⟩ ∧
    submitPassword (submitPassword st p1) p2 = submitPassword st p1 ∧
    (submitPassword (submitPassword st p1) p2).challenge =
      Challenge.resolved (jsTrim p1) ∧
    (submitPassword (submitPassword st p1) p2).resumes = 1 := by
  have h1 : submitPassword st p1 = ⟨false, Challenge.resolved (jsTrim p1), 1⟩ := by
    simp [submitPassword, if_neg hp1, hres, hch, hcount, resolveChallenge]
  have h2 : submitPassword (submitPassword st p1) p2 = submitPassword st p1 := by
    rw [h1]
    by_cases hp2 : jsTrim p2 = []
    · simp [submitPassword, hp2]
    · simp [submitPassword, if_neg hp2]
  exact ⟨h1, h2, by rw [h2, h1], by rw [h2, h1]⟩

/-- Claim C9 (witness): double submission of the concrete secret
`"secret123"` resolves the challenge exactly once. -/
theorem password_single_resolution_witness :
    submitPassword (submitPassword ⟨true, Challenge.pending, 0⟩ (jstr "secret123"))
        (jstr "secret123") =
      submitPassword ⟨true, Challenge.pending, 0⟩ (jstr "secret123") ∧
    (submitPassword (submitPassword ⟨true, Challenge.pending, 0⟩ (jstr "secret123"))
        (jstr "secret123")).challenge = Challenge.resolved (jsTrim (jstr "secret123")) ∧
    (submitPassword (submitPassword ⟨true, Challenge.pending, 0⟩ (jstr "secret123"))
        (jstr "secret123")).resumes = 1 :=
  ⟨(password_single_resolution ⟨true, Challenge.pending, 0⟩ (jstr "secret123")
      (jstr "secret123") rfl rfl rfl (by decide)).2.1,
   (password_single_resolution ⟨true, Challenge.pending, 0⟩ (jstr "secret123")
      (jstr "secret123") rfl rfl rfl (by decide)).2.2.1,
   (password_single_resolution ⟨true, Challenge.pending, 0⟩ (jstr "secret123")
      (jstr "secret123") rfl rfl rfl (by decide)).2.2.2⟩

/-- A stored recent-chat record (`RecentChat` in `src/openchat.tsx`
lines 33-38). -/
structure RecentChat where
  id : JsStr
  title : JsStr
  ty : JsStr
  lastUsed : Nat
deriving DecidableEq, Repr

/-- `MAX_RECENT_CHATS` (`src/openchat.tsx` line 30). -/
def MAX_RECENT_CHATS : Nat := 15

/-- In-place update of the first entry with a matching id
(`src/openchat.tsx` lines 370-377): the id is kept, title/type/lastUsed
are refreshed. -/
def updateEntry : List RecentChat → JsStr → JsStr → JsStr → Nat → List RecentChat
  | [], _, _, _, _ => []
  | c :: rest, id, title, ty, now =>
    if c.id == id then { c with title := title, ty := ty, lastUsed := now } :: rest
    else c :: updateEntry rest id title ty now

/-- The descending last-used order used by the comparator
`(a, b) => b.lastUsed - a.lastUsed` (`src/openchat.tsx` line 389). -/
def recentDesc (a b : RecentChat) : Prop := b.lastUsed ≤ a.lastUsed

instance : DecidableRel recentDesc := fun a b => Nat.decLe b.lastUsed a.lastUsed

instance : IsTotal RecentChat recentDesc := ⟨fun a b => Nat.le_total b.lastUsed a.lastUsed⟩

instance : IsTrans RecentChat recentDesc := ⟨fun _ _ _ h1 h2 => Nat.le_trans h2 h1⟩

/-- `updateRecentChat` (`src/openchat.tsx` lines 359-399): refresh the
existing entry or append a new one, sort by last-used descending, and trim
to `MAX_RECENT_CHATS` before persisting. -/
def updateRecentChat (recent : List RecentChat) (id title ty : JsStr) (now : Nat) :
    List RecentChat :=
  let merged :=
    if recent.any (fun c => c.id == id) then updateEntry recent id title ty now
    else recent ++ [⟨id, title, ty, now⟩]
  (List.insertionSort recentDesc merged).take MAX_RECENT_CHATS

lemma updateEntry_map_id : ∀ (l : List RecentChat) (id title ty : JsStr) (now : Nat),
    (updateEntry l id title ty now).map RecentChat.id = l.map RecentChat.id := by
  intro l id title ty now
  induction l with
  | nil => rfl
  | cons c rest ih =>
    by_cases hc : (c.id == id) = true
    · simp [updateEntry, hc]
    · simp only [updateEntry, hc, if_false, Bool.false_eq_true, List.map_cons]
      rw [ih]

lemma updateEntry_length : ∀ (l : List RecentChat) (id title ty : JsStr) (now : Nat),
    (updateEntry l id title ty now).length = l.length := by
  intro l id title ty now
  induction l with
  | nil => rfl
  | cons c rest ih =>
    by_cases hc : (c.id == id) = true
    · simp [updateEntry, hc]
    · simp only [updateEntry, hc, if_false, Bool.false_eq_true, List.length_cons]
      rw [ih]

/-- Claim C10: after every update of the recent-chats store, the persisted
list has at most 15 entries and is sorted by last-used timestamp in
descending order; if the stored ids were pairwise distinct they remain so
(an existing id is replaced in place); and updating an existing id does
not grow the list. -/
theorem recentChats_invariant (recent : List RecentChat) (id title ty : JsStr)
    (now : Nat) :
    (updateRecentChat recent id title ty now).length ≤ 15 ∧
    List.Sorted recentDesc (updateRecentChat recent id title ty now) ∧
    ((recent.map RecentChat.id).Nodup →
      ((updateRecentChat recent id title ty now).map RecentChat.id).Nodup) ∧
    (recent.any (fun c => c.id == id) = true →
      (updateRecentChat recent id title ty now).length ≤ recent.length) := by
  refine ⟨?_, ?_, ?_, ?_⟩
  · exact List.length_take_le MAX_RECENT_CHATS _
  · exact List.Pairwise.sublist (List.take_sublist _ _)
      (List.sorted_insertionSort recentDesc _)
  · intro h
    have hmerged : ((if recent.any (fun c => c.id == id) then
        updateEntry recent id title ty now
      else recent ++ [⟨id, title, ty, now⟩]).map RecentChat.id).Nodup := by
      by_cases ha : recent.any (fun c => c.id == id) = true
      · rw [if_pos ha, updateEntry_map_id]
        exact h
      · rw [if_neg ha]
        rw [List.map_append]
        refine List.Nodup.append h (List.nodup_singleton _) ?_
        intro x hx hx1
        rcases List.mem_map.mp hx with ⟨c, hc, hcid⟩
        rcases List.mem_singleton.mp hx1 with rfl
        apply ha
        exact List.any_eq_true.mpr ⟨c, hc, by simp [hcid]⟩
    have hsorted : ((List.insertionSort recentDesc
        (if recent.any (fun c => c.id == id) then updateEntry recent id title ty now
         else recent ++ [⟨id, title, ty, now⟩])).map RecentChat.id).Nodup :=
      (((List.perm_insertionSort recentDesc _).map RecentChat.id).nodup_iff).mpr hmerged
    have := List.Nodup.sublist
      ((List.take_sublist MAX_RECENT_CHATS _).map RecentChat.id) hsorted
    simpa [updateRecentChat] using this
  · intro ha
    have h1 := (List.take_sublist MAX_RECENT_CHATS
      (List.insertionSort recentDesc (updateEntry recent id title ty now))).length_le
    have h2 := (List.perm_insertionSort recentDesc
      (updateEntry recent id title ty now)).length_eq
    have h3 := updateEntry_length recent id title ty now
    simp only [updateRecentChat, if_pos ha]
    omega

/-- Two stored recent chats for the C10 witness. -/
def recentW : List RecentChat :=
  [⟨jstr "a", [], [], 5⟩, ⟨jstr "b", [], [], 3⟩]

/-- Claim C10 (witness): updating the existing id `"a"` keeps at most 15
entries, keeps the ids pairwise distinct, and does not grow the list. -/
theorem recentChats_invariant_witness :
    (updateRecentChat recentW (jstr "a") (jstr "T") (jstr "Private") 10).length ≤ 15 ∧
    ((updateRecentChat recentW (jstr "a") (jstr "T") (jstr "Private") 10).map
      RecentChat.id).Nodup ∧
    (updateRecentChat recentW (jstr "a") (jstr "T") (jstr "Private") 10).length ≤
      recentW.length :=
  ⟨(recentChats_invariant recentW (jstr "a") (jstr "T") (jstr "Private") 10).1,
   (recentChats_invariant recentW (jstr "a") (jstr "T") (jstr "Private") 10).2.2.1
     (by decide),
   (recentChats_invariant recentW (jstr "a") (jstr "T") (jstr "Private") 10).2.2.2
     (by decide)⟩
